import Mathlib

/-!
Shallow embedding of `scportrait/processing/filtering.py`.

Label masks are 2D integer arrays; we model them as `List (List Nat)`
(a list of rows).  The numpy helpers that are shape-generic
(`np.unique`, `np.isin`-based zeroing) are modelled on flat pixel
lists, and lifted row-wise where a 2D mask is required.  Real-valued
proportions and thresholds are modelled over `ℚ` (idealising IEEE
floating point by exact rational arithmetic).
-/

namespace ScPortrait

/-- A 2D label mask: a list of rows of pixel values (0 = background). -/
abbrev Mask := List (List Nat)

/-- All pixels of a 2D mask in row-major order (numpy flattening). -/
def flatten (m : Mask) : List Nat := m.flatten

/-- `np.unique(xs)`: the distinct values of `xs` in ascending order. -/
def npUnique (xs : List Nat) : List Nat :=
  List.insertionSort (· ≤ ·) xs.dedup

/-- `_BaseFilter.get_unique_ids`: `np.unique(mask)[1:]` — drops the first
(smallest) element of the sorted distinct values ("to remove the background"). -/
def get_unique_ids (xs : List Nat) : List Nat :=
  (npUnique xs).drop 1

/-- `_BaseFilter.get_updated_mask`: `np.where(np.isin(mask, ids_to_remove), 0, mask)`
on a flat pixel list. -/
def get_updated_mask (xs : List Nat) (ids_to_remove : List Nat) : List Nat :=
  xs.map (fun v => if v ∈ ids_to_remove then 0 else v)

/-- `_BaseFilter.get_updated_mask` lifted to a 2D mask (numpy broadcasts
elementwise, so acting row-wise is the same operation). -/
def get_updated_mask2 (m : Mask) (ids_to_remove : List Nat) : Mask :=
  m.map (fun row => get_updated_mask row ids_to_remove)

/-! ### Basic facts about `npUnique` -/

theorem mem_npUnique {xs : List Nat} {a : Nat} : a ∈ npUnique xs ↔ a ∈ xs := by
  unfold npUnique
  rw [(List.perm_insertionSort (· ≤ ·) xs.dedup).mem_iff, List.mem_dedup]

theorem nodup_npUnique (xs : List Nat) : (npUnique xs).Nodup :=
  ((List.perm_insertionSort (· ≤ ·) xs.dedup).nodup_iff).mpr xs.nodup_dedup

theorem sorted_npUnique (xs : List Nat) : (npUnique xs).Sorted (· ≤ ·) :=
  List.sorted_insertionSort (· ≤ ·) xs.dedup

/-- When `0` occurs in the pixel list, it is the head of the sorted distinct values. -/
theorem npUnique_eq_zero_cons {xs : List Nat} (h0 : 0 ∈ xs) :
    ∃ t, npUnique xs = 0 :: t := by
  have hmem : 0 ∈ npUnique xs := mem_npUnique.mpr h0
  cases hu : npUnique xs with
  | nil => rw [hu] at hmem; exact absurd hmem (List.not_mem_nil 0)
  | cons h t =>
    have hsorted := sorted_npUnique xs
    rw [hu] at hsorted hmem
    rcases List.mem_cons.mp hmem with heq | htail
    · exact ⟨t, by rw [← heq]⟩
    · have : h ≤ 0 := List.rel_of_sorted_cons hsorted 0 htail
      exact ⟨t, by rw [Nat.le_zero.mp this]⟩

/-- Membership characterisation of `get_unique_ids` for lists that do contain
the background value: exactly the positive values present. -/
theorem mem_get_unique_ids_of_zero_mem {xs : List Nat} (h0 : 0 ∈ xs) (v : Nat) :
    v ∈ get_unique_ids xs ↔ v ∈ xs ∧ v ≠ 0 := by
  obtain ⟨t, ht⟩ := npUnique_eq_zero_cons h0
  have hnd := nodup_npUnique xs
  rw [ht] at hnd
  unfold get_unique_ids
  rw [ht]
  simp only [List.drop_succ_cons, List.drop_zero]
  constructor
  · intro hv
    refine ⟨mem_npUnique.mp (by rw [ht]; exact List.mem_cons_of_mem 0 hv), ?_⟩
    intro hv0
    exact (List.nodup_cons.mp hnd).1 (hv0 ▸ hv)
  · rintro ⟨hvxs, hv0⟩
    have : v ∈ npUnique xs := mem_npUnique.mpr hvxs
    rw [ht] at this
    rcases List.mem_cons.mp this with h | h
    · exact absurd h hv0
    · exact h

/-- `get_unique_ids` never returns the background value 0, for any input. -/
theorem zero_not_mem_get_unique_ids (xs : List Nat) : 0 ∉ get_unique_ids xs := by
  intro hmem
  by_cases h0 : 0 ∈ xs
  · exact ((mem_get_unique_ids_of_zero_mem h0 0).mp hmem).2 rfl
  · have : 0 ∈ npUnique xs := (List.drop_subset 1 (npUnique xs)) hmem
    exact h0 (mem_npUnique.mp this)

theorem nodup_get_unique_ids (xs : List Nat) : (get_unique_ids xs).Nodup :=
  (nodup_npUnique xs).sublist (List.drop_sublist 1 (npUnique xs))

theorem get_unique_ids_subset {xs : List Nat} {v : Nat}
    (h : v ∈ get_unique_ids xs) : v ∈ xs :=
  mem_npUnique.mp ((List.drop_subset 1 (npUnique xs)) h)

/-! ### Basic facts about `get_updated_mask` -/

theorem get_updated_mask_nil_ids (xs : List Nat) : get_updated_mask xs [] = xs := by
  unfold get_updated_mask
  simp

theorem getElem?_get_updated_mask (xs ids : List Nat) (i : Nat) :
    (get_updated_mask xs ids)[i]? =
      xs[i]?.map (fun v => if v ∈ ids then 0 else v) := by
  unfold get_updated_mask
  rw [List.getElem?_map]

theorem get_updated_mask2_nil_ids (m : Mask) : get_updated_mask2 m [] = m := by
  unfold get_updated_mask2
  simp [get_updated_mask_nil_ids]

/-! ### SizeFilter

`SizeFilter._get_ids_to_remove` computes `np.unique(mask, return_counts=True)`,
drops the first entry of both arrays (`counts[0][1:]`, `counts[1][1:]`), and
collects the ids whose pixel count is strictly below the lower threshold
(when `filter_lower`) or strictly above the upper threshold (when
`filter_upper`).  `SizeFilter.filter` then zeroes those ids in the input mask.
We model a fresh session (its cached `ids_to_remove` starts as `None`) with an
explicitly supplied `filter_threshold = (lo, hi)`, so no mixture fitting runs.
-/

/-- The ids considered by `_get_ids_to_remove` paired with their pixel counts:
`np.unique(mask, return_counts=True)` with the first entry of each array
dropped. -/
def consideredCounts (xs : List Nat) : List (Nat × Nat) :=
  ((npUnique xs).map (fun v => (v, xs.count v))).drop 1

/-- `SizeFilter._get_ids_to_remove` for a fresh, non-downsampling session with
an explicit threshold `(lo, hi)`. -/
def sizeFilterIdsToRemove (xs : List Nat) (lo hi : ℚ)
    (filter_lower filter_upper : Bool) : List Nat :=
  (if filter_lower then
      ((consideredCounts xs).filter (fun p => decide ((p.2 : ℚ) < lo))).map Prod.fst
    else []) ++
  (if filter_upper then
      ((consideredCounts xs).filter (fun p => decide (hi < (p.2 : ℚ)))).map Prod.fst
    else [])

/-- `SizeFilter.filter` for a fresh, non-downsampling session with an explicit
threshold and both tails enabled. -/
def sizeFilterRun (xs : List Nat) (lo hi : ℚ) : List Nat :=
  get_updated_mask xs (sizeFilterIdsToRemove xs lo hi true true)

/-- Membership in the removal list, for masks that contain a background pixel:
exactly the positive ids present whose count falls outside `[lo, hi]`. -/
theorem mem_sizeFilterIdsToRemove_of_zero_mem {xs : List Nat} (h0 : 0 ∈ xs)
    (lo hi : ℚ) (v : Nat) :
    v ∈ sizeFilterIdsToRemove xs lo hi true true ↔
      v ∈ xs ∧ v ≠ 0 ∧ ((xs.count v : ℚ) < lo ∨ hi < (xs.count v : ℚ)) := by
  obtain ⟨t, ht⟩ := npUnique_eq_zero_cons h0
  have hcc : consideredCounts xs = t.map (fun v => (v, xs.count v)) := by
    unfold consideredCounts
    rw [ht, List.map_cons, List.drop_succ_cons, List.drop_zero]
  have hmemt : ∀ w, w ∈ t ↔ w ∈ xs ∧ w ≠ 0 := by
    intro w
    have := mem_get_unique_ids_of_zero_mem h0 w
    unfold get_unique_ids at this
    rw [ht, List.drop_succ_cons, List.drop_zero] at this
    exact this
  unfold sizeFilterIdsToRemove
  rw [if_pos rfl, if_pos rfl, hcc, List.mem_append]
  constructor
  · rintro (h | h) <;>
    · obtain ⟨p, hp, hpv⟩ := List.mem_map.mp h
      obtain ⟨hpf, hpd⟩ := List.mem_filter.mp hp
      obtain ⟨w, hw, hwp⟩ := List.mem_map.mp hpf
      subst hwp
      subst hpv
      obtain ⟨hwx, hw0⟩ := (hmemt w).mp hw
      refine ⟨hwx, hw0, ?_⟩
      first
        | exact Or.inl (of_decide_eq_true hpd)
        | exact Or.inr (of_decide_eq_true hpd)
  · rintro ⟨hvx, hv0, hcount⟩
    have hvt : v ∈ t := (hmemt v).mpr ⟨hvx, hv0⟩
    rcases hcount with h | h
    · refine Or.inl (List.mem_map.mpr ⟨(v, xs.count v), ?_, rfl⟩)
      exact List.mem_filter.mpr ⟨List.mem_map.mpr ⟨v, hvt, rfl⟩, decide_eq_true h⟩
    · refine Or.inr (List.mem_map.mpr ⟨(v, xs.count v), ?_, rfl⟩)
      exact List.mem_filter.mpr ⟨List.mem_map.mpr ⟨v, hvt, rfl⟩, decide_eq_true h⟩

/-- The predicate deciding removal of a pixel value in a size-filter run:
nonzero and with a pixel count outside `[lo, hi]`. -/
def outOfRange (xs : List Nat) (lo hi : ℚ) (v : Nat) : Prop :=
  v ≠ 0 ∧ ((xs.count v : ℚ) < lo ∨ hi < (xs.count v : ℚ))

instance (xs : List Nat) (lo hi : ℚ) (v : Nat) : Decidable (outOfRange xs lo hi v) := by
  unfold outOfRange; infer_instance

/-- Pointwise description of a size-filter run on a mask that contains a
background pixel: each pixel is zeroed iff its value's count is out of range. -/
theorem sizeFilterRun_eq_map {xs : List Nat} (h0 : 0 ∈ xs) (lo hi : ℚ) :
    sizeFilterRun xs lo hi =
      xs.map (fun v => if outOfRange xs lo hi v then 0 else v) := by
  unfold sizeFilterRun get_updated_mask
  refine List.map_congr_left ?_
  intro v hv
  by_cases hmem : v ∈ sizeFilterIdsToRemove xs lo hi true true
  · rw [if_pos hmem, if_pos]
    obtain ⟨_, h1, h2⟩ := (mem_sizeFilterIdsToRemove_of_zero_mem h0 lo hi v).mp hmem
    exact ⟨h1, h2⟩
  · rw [if_neg hmem, if_neg]
    intro ⟨h1, h2⟩
    exact hmem ((mem_sizeFilterIdsToRemove_of_zero_mem h0 lo hi v).mpr ⟨hv, h1, h2⟩)

/-- Pixels whose value is retained keep their exact count in the filtered mask. -/
theorem count_sizeFilterRun {xs : List Nat} (h0 : 0 ∈ xs) (lo hi : ℚ) (v : Nat)
    (hv : v ≠ 0) (hin : ¬((xs.count v : ℚ) < lo ∨ hi < (xs.count v : ℚ))) :
    (sizeFilterRun xs lo hi).count v = xs.count v := by
  rw [sizeFilterRun_eq_map h0, List.count_eq_countP, List.countP_map,
    List.count_eq_countP]
  refine List.countP_congr ?_
  intro a _
  simp only [Function.comp]
  constructor
  · intro h
    have h' : (if outOfRange xs lo hi a then 0 else a) = v := by simpa using h
    by_cases hout : outOfRange xs lo hi a
    · rw [if_pos hout] at h'
      exact absurd h'.symm hv
    · rw [if_neg hout] at h'
      simpa using h'
  · intro h
    have h' : a = v := by simpa using h
    subst h'
    rw [if_neg (fun hc => hin hc.2)]
    simp

/-- The background pixel survives a size-filter run. -/
theorem zero_mem_sizeFilterRun {xs : List Nat} (h0 : 0 ∈ xs) (lo hi : ℚ) :
    0 ∈ sizeFilterRun xs lo hi := by
  rw [sizeFilterRun_eq_map h0]
  refine List.mem_map.mpr ⟨0, h0, ?_⟩
  rw [if_neg (fun hc => hc.1 rfl)]

/-- A size-filter run is idempotent on masks that contain a background pixel. -/
theorem sizeFilterRun_idempotent {xs : List Nat} (h0 : 0 ∈ xs) (lo hi : ℚ) :
    sizeFilterRun (sizeFilterRun xs lo hi) lo hi = sizeFilterRun xs lo hi := by
  have h0' := zero_mem_sizeFilterRun h0 lo hi
  rw [sizeFilterRun_eq_map h0']
  have hpt : ∀ v ∈ sizeFilterRun xs lo hi,
      (if outOfRange (sizeFilterRun xs lo hi) lo hi v then 0 else v) = id v := by
    intro v hv
    simp only [id]
    rw [sizeFilterRun_eq_map h0] at hv
    obtain ⟨w, hw, hwv⟩ := List.mem_map.mp hv
    by_cases hout : outOfRange xs lo hi w
    · rw [if_pos hout] at hwv
      subst hwv
      rw [if_neg (fun hc => hc.1 rfl)]
    · rw [if_neg hout] at hwv
      subst hwv
      by_cases hw0 : w = 0
      · subst hw0
        rw [if_neg (fun hc => hc.1 rfl)]
      · have hin : ¬((xs.count w : ℚ) < lo ∨ hi < (xs.count w : ℚ)) :=
          fun hc => hout ⟨hw0, hc⟩
        rw [if_neg]
        intro ⟨_, hc⟩
        rw [count_sizeFilterRun h0 lo hi w hw0 hin] at hc
        exact hin hc
  rw [List.map_congr_left hpt, List.map_id]

/-! ### MatchNucleusCytosolIds

Masks are loaded into a fresh session by `_load_masks`; with
`downsampling_factor = None` they are stored unchanged, so the pipeline below
takes the two masks directly.  Indexing the cytosol mask with the nucleus
footprint (`self.cytosol_mask[nucleus_pixels]`) is partial in numpy — an
out-of-bounds position raises `IndexError` — so position lookup returns
`Option` and the pipeline is `Option`-valued; `none` models that error.
-/

/-- Mutable session state of `MatchNucleusCytosolIds`: the insertion-ordered
lookup dict `_nucleus_lookup_dict` and the two discard lists. -/
structure MatchState where
  lookup : List (Nat × Nat)
  nucleiDiscard : List Nat
  cytosolDiscard : List Nat
  deriving DecidableEq

/-- The fresh session state: empty dict, empty discard lists. -/
def initialState : MatchState := ⟨[], [], []⟩

/-- Value of a mask at position `(i, j)`; `none` when out of bounds. -/
def atPos (m : Mask) (p : Nat × Nat) : Option Nat :=
  m[p.1]?.bind (fun row => row[p.2]?)

/-- `np.where(self.nucleus_mask == nucleus_id)`: the row-major list of
positions carrying the given id. -/
def wherePos (m : Mask) (id : Nat) : List (Nat × Nat) :=
  (m.enum.map (fun ir =>
    ((ir.2.enum.filter (fun jv => jv.2 == id)).map (fun jv => (ir.1, jv.1))))).flatten

/-- Look up every position, failing if any single lookup fails (numpy fancy
indexing: one out-of-bounds index raises). -/
def atPosAll (m : Mask) : List (Nat × Nat) → Option (List Nat)
  | [] => some []
  | p :: ps =>
    match atPos m p, atPosAll m ps with
    | some v, some vs => some (v :: vs)
    | _, _ => none

/-- `self.cytosol_mask[nucleus_pixels]`: the cytosol values under the
footprint of the given nucleus id, in row-major order. -/
def footprintValues (nuc cyt : Mask) (id : Nat) : Option (List Nat) :=
  atPosAll cyt (wherePos nuc id)

/-- The cytosol id selected by `_match_nucleus_id` from the footprint values:
`np.unique` with counts, proportions against their sum, and
`argmax(proportions >= threshold)` guarded by `np.any(...)` — i.e. the first
(ascending) distinct label whose proportion reaches the threshold. -/
def firstQualifying (thr : ℚ) (vals : List Nat) : Option Nat :=
  let uniqueCytosol := npUnique vals
  let allCounts := (uniqueCytosol.map (fun c => vals.count c)).sum
  (uniqueCytosol.filter
    (fun c => decide (thr ≤ (vals.count c : ℚ) / (allCounts : ℚ)))).head?

/-- `MatchNucleusCytosolIds._match_nucleus_id`, as a state transformer. -/
def matchNucleusId (nuc cyt : Mask) (thr : ℚ) (st : MatchState)
    (nucleus_id : Nat) : Option MatchState :=
  match footprintValues nuc cyt nucleus_id with
  | none => none
  | some potential_cytosol =>
    if potential_cytosol.all (fun v => v != 0) then
      match firstQualifying thr potential_cytosol with
      | some cytosol_id =>
        if cytosol_id ≠ 0 then
          some { st with lookup := st.lookup ++ [(nucleus_id, cytosol_id)] }
        else
          some { st with nucleiDiscard := st.nucleiDiscard ++ [nucleus_id] }
      | none =>
        some { st with nucleiDiscard := st.nucleiDiscard ++ [nucleus_id] }
    else
      some { st with nucleiDiscard := st.nucleiDiscard ++ [nucleus_id] }

/-- `_initialize_lookup_table`: match every nucleus id of the nucleus mask in
ascending order. -/
def initializeLookupTable (nuc cyt : Mask) (thr : ℚ) : Option MatchState :=
  (get_unique_ids (flatten nuc)).foldlM (matchNucleusId nuc cyt thr) initialState

/-- `_count_cytosol_occurances`: occurrences of a cytosol id among the values
of the lookup dict. -/
def cytosolCount (lookup : List (Nat × Nat)) (c : Nat) : Nat :=
  (lookup.map Prod.snd).count c

/-- `_check_for_unassigned_cytosols`: append every cytosol id of the cytosol
mask that is not a value of the lookup dict to the cytosol discard list. -/
def checkForUnassignedCytosols (cyt : Mask) (st : MatchState) : MatchState :=
  { st with cytosolDiscard := st.cytosolDiscard ++
      ((get_unique_ids (flatten cyt)).filter
        (fun c => decide (c ∉ st.lookup.map Prod.snd))) }

/-- `_identify_multinucleated_cells`: for every entry whose cytosol occurs
more than once among the dict values, append the nucleus and the cytosol to
the respective discard lists. -/
def identifyMultinucleatedCells (st : MatchState) : MatchState :=
  let multi := st.lookup.filter (fun p => decide (1 < cytosolCount st.lookup p.2))
  { st with nucleiDiscard := st.nucleiDiscard ++ multi.map Prod.fst,
            cytosolDiscard := st.cytosolDiscard ++ multi.map Prod.snd }

/-- `_cleanup_filtering_lists`: `list(set(...))` — deduplicate both discard
lists (Python set order is unspecified; only membership is used downstream). -/
def cleanupFilteringLists (st : MatchState) : MatchState :=
  { st with nucleiDiscard := st.nucleiDiscard.dedup,
            cytosolDiscard := st.cytosolDiscard.dedup }

/-- `_cleanup_lookup_dictionary`: collect the keys whose nucleus or cytosol id
is discarded, deduplicate, and delete those keys from the dict. -/
def cleanupLookupDictionary (st : MatchState) : MatchState :=
  let cleanup := ((st.lookup.filter (fun p =>
      decide (p.1 ∈ st.nucleiDiscard) || decide (p.2 ∈ st.cytosolDiscard))).map
        Prod.fst).dedup
  { st with lookup := st.lookup.filter (fun p => decide (p.1 ∉ cleanup)) }

/-- `get_lookup_table` for a fresh, non-downsampling session: the full
matching pipeline, returning the final session state (its `lookup` field is
the returned `nucleus_lookup_dict`). -/
def getLookupTable (nuc cyt : Mask) (thr : ℚ) : Option MatchState :=
  match initializeLookupTable nuc cyt thr with
  | none => none
  | some st =>
    some (cleanupLookupDictionary (cleanupFilteringLists
      (identifyMultinucleatedCells (checkForUnassignedCytosols cyt st))))

/-! ### Mask rewrite and the `filter` entry point -/

/-- One pass of the relabelling loop body in `_get_updated_cytosol_mask`:
`condition = (cytosol_mask == cytosol_id) & ~updated;
cytosol_mask[condition] = nucleus_id; updated |= condition`, carried out on
pixels paired with their `updated` flag. -/
def applyLookupEntry (px : List (Nat × Bool)) (entry : Nat × Nat) :
    List (Nat × Bool) :=
  px.map (fun q => if q.1 = entry.2 ∧ q.2 = false then (entry.1, true) else q)

/-- `_get_updated_cytosol_mask` on one row of pixels: zero the discarded
cytosol ids, then fold the relabelling loop over the lookup entries (the loop
is pixelwise, so acting row by row is the same computation). -/
def updatedCytosolRow (lookup : List (Nat × Nat)) (cytosolDiscard : List Nat)
    (row : List Nat) : List Nat :=
  ((lookup.foldl applyLookupEntry
      ((get_updated_mask row cytosolDiscard).map (fun v => (v, false)))).map
        Prod.fst)

/-- `MatchNucleusCytosolIds._get_updated_cytosol_mask`. -/
def getUpdatedCytosolMask (cyt : Mask) (st : MatchState) : Mask :=
  cyt.map (updatedCytosolRow st.lookup st.cytosolDiscard)

/-- `_BaseFilter.get_upscaled_mask_basic` with `erosion_dilation=False`:
`mask.repeat(factor, axis=0).repeat(factor, axis=1)` (the smoothing branch
applies skimage grayscale morphology and is outside the claims below). -/
def getUpscaledMaskBasic (factor : Nat) (m : Mask) : Mask :=
  (m.map (fun row => (row.map (List.replicate factor)).flatten)).flatMap
    (List.replicate factor)

/-- `MatchNucleusCytosolIds._get_updated_masks`.  NOTE (faithful to the
source): in the downsampling branch the source upscales `self.cytosol_mask`
— the raw loaded cytosol mask — not the cleaned, relabelled `cytosol_mask`
local it just computed. -/
def getUpdatedMasks (downsample : Bool) (factor : Nat) (nuc cyt : Mask)
    (st : MatchState) : Mask × Mask :=
  let nucleus_mask := get_updated_mask2 nuc st.nucleiDiscard
  let cytosol_mask := getUpdatedCytosolMask cyt st
  if downsample then
    (getUpscaledMaskBasic factor nucleus_mask, getUpscaledMaskBasic factor cyt)
  else
    (nucleus_mask, cytosol_mask)

/-- `MatchNucleusCytosolIds.filter` for a fresh session with downsampling
disabled: build the lookup table, then return the updated masks. -/
def filterRun (nuc cyt : Mask) (thr : ℚ) : Option (Mask × Mask) :=
  match getLookupTable nuc cyt thr with
  | none => none
  | some st => some (getUpdatedMasks false 1 nuc cyt st)

/-! ### An integer-arithmetic mirror of the pipeline

Rational division does not reduce definitionally, so concrete runs of the
pipeline are evaluated through a mirror in which the proportion comparison
`thr ≤ count / total` is replaced by the equivalent cross-multiplied integer
comparison.  The mirror is proved equal (as a function) to the faithful
definition, so every concrete statement about `getLookupTable` or `filterRun`
can be transported to the mirror and then decided. -/

/-- The sum of the per-label counts over the distinct labels is the number of
footprint pixels. -/
theorem sum_counts_npUnique (vals : List Nat) :
    ((npUnique vals).map (fun c => vals.count c)).sum = vals.length := by
  have hperm : List.Perm (npUnique vals) vals.dedup :=
    List.perm_insertionSort (· ≤ ·) vals.dedup
  rw [List.Perm.sum_eq (hperm.map (fun c => vals.count c)),
    List.sum_map_count_dedup_eq_length]

/-- Comparing two rational quotients of integers by cross-multiplication. -/
theorem div_le_div_iff_cross (a : Int) (b cnt total : Nat) (hb : 0 < b)
    (ht : 0 < total) :
    ((a : ℚ) / (b : ℚ) ≤ (cnt : ℚ) / (total : ℚ)) ↔
      a * (total : Int) ≤ (cnt : Int) * (b : Int) := by
  rw [div_le_div_iff₀ (by exact_mod_cast hb) (by exact_mod_cast ht)]
  exact_mod_cast Iff.rfl

/-- Cross-multiplied form of the proportion test, for a nonempty footprint. -/
theorem thr_le_div_iff (thr : ℚ) (cnt total : Nat) (h : 0 < total) :
    (thr ≤ (cnt : ℚ) / (total : ℚ)) ↔
      thr.num * (total : Int) ≤ (cnt : Int) * (thr.den : Int) := by
  conv_lhs => rw [← Rat.num_div_den thr]
  exact div_le_div_iff_cross thr.num thr.den cnt total thr.pos h

/-- `firstQualifying` with the proportion test in integer form. -/
def firstQualifyingInt (thr : ℚ) (vals : List Nat) : Option Nat :=
  let uniqueCytosol := npUnique vals
  let allCounts := (uniqueCytosol.map (fun c => vals.count c)).sum
  (uniqueCytosol.filter
    (fun c => decide (thr.num * (allCounts : Int) ≤
      (vals.count c : Int) * (thr.den : Int)))).head?

theorem firstQualifying_eq_int : firstQualifying = firstQualifyingInt := by
  funext thr vals
  unfold firstQualifying firstQualifyingInt
  simp only []
  congr 1
  refine List.filter_congr ?_
  intro c hc
  have hne : vals ≠ [] := by
    intro h
    subst h
    simp [npUnique, List.insertionSort] at hc
  have hlen : 0 < vals.length := List.length_pos.mpr hne
  rw [sum_counts_npUnique]
  simp only [decide_eq_decide]
  exact thr_le_div_iff thr _ _ hlen

/-- Mirror of `matchNucleusId` using `firstQualifyingInt`. -/
def matchNucleusIdInt (nuc cyt : Mask) (thr : ℚ) (st : MatchState)
    (nucleus_id : Nat) : Option MatchState :=
  match footprintValues nuc cyt nucleus_id with
  | none => none
  | some potential_cytosol =>
    if potential_cytosol.all (fun v => v != 0) then
      match firstQualifyingInt thr potential_cytosol with
      | some cytosol_id =>
        if cytosol_id ≠ 0 then
          some { st with lookup := st.lookup ++ [(nucleus_id, cytosol_id)] }
        else
          some { st with nucleiDiscard := st.nucleiDiscard ++ [nucleus_id] }
      | none =>
        some { st with nucleiDiscard := st.nucleiDiscard ++ [nucleus_id] }
    else
      some { st with nucleiDiscard := st.nucleiDiscard ++ [nucleus_id] }

theorem matchNucleusId_eq_int : matchNucleusId = matchNucleusIdInt := by
  unfold matchNucleusId matchNucleusIdInt
  rw [firstQualifying_eq_int]

/-- Mirror of `initializeLookupTable`. -/
def initializeLookupTableInt (nuc cyt : Mask) (thr : ℚ) : Option MatchState :=
  (get_unique_ids (flatten nuc)).foldlM (matchNucleusIdInt nuc cyt thr)
    initialState

theorem initializeLookupTable_eq_int :
    initializeLookupTable = initializeLookupTableInt := by
  unfold initializeLookupTable initializeLookupTableInt
  rw [matchNucleusId_eq_int]

/-- Mirror of `getLookupTable`. -/
def getLookupTableInt (nuc cyt : Mask) (thr : ℚ) : Option MatchState :=
  match initializeLookupTableInt nuc cyt thr with
  | none => none
  | some st =>
    some (cleanupLookupDictionary (cleanupFilteringLists
      (identifyMultinucleatedCells (checkForUnassignedCytosols cyt st))))

theorem getLookupTable_eq_int : getLookupTable = getLookupTableInt := by
  unfold getLookupTable getLookupTableInt
  rw [initializeLookupTable_eq_int]

/-- Mirror of `filterRun`. -/
def filterRunInt (nuc cyt : Mask) (thr : ℚ) : Option (Mask × Mask) :=
  match getLookupTableInt nuc cyt thr with
  | none => none
  | some st => some (getUpdatedMasks false 1 nuc cyt st)

theorem filterRun_eq_int : filterRun = filterRunInt := by
  unfold filterRun filterRunInt
  rw [getLookupTable_eq_int]

/-! ### Characterising `firstQualifying` -/

/-- The head of a filtered sorted list is the minimal satisfying element. -/
theorem head_filter_eq_of_min {l : List Nat} {p : Nat → Bool} {c : Nat}
    (hs : l.Sorted (· ≤ ·)) (hc : c ∈ l) (hpc : p c = true)
    (hmin : ∀ b ∈ l, p b = true → c ≤ b) :
    (l.filter p).head? = some c := by
  induction l with
  | nil => cases hc
  | cons x xs ih =>
    rw [List.filter_cons]
    by_cases hpx : p x = true
    · rw [if_pos hpx, List.head?_cons]
      have hcx : c ≤ x := hmin x (List.mem_cons_self x xs) hpx
      rcases List.mem_cons.mp hc with heq | htail
      · rw [heq]
      · have hxc : x ≤ c := List.rel_of_sorted_cons hs c htail
        rw [Nat.le_antisymm hcx hxc]
    · rw [if_neg hpx]
      have hcxs : c ∈ xs := by
        rcases List.mem_cons.mp hc with heq | htail
        · exact absurd (heq ▸ hpc) hpx
        · exact htail
      exact ih hs.of_cons hcxs
        (fun b hb hpb => hmin b (List.mem_cons_of_mem x hb) hpb)

/-- Soundness of `firstQualifying`: a selected cytosol id occurs under the
footprint and its proportion of the footprint reaches the threshold. -/
theorem firstQualifying_sound {thr : ℚ} {vals : List Nat} {c : Nat}
    (h : firstQualifying thr vals = some c) :
    c ∈ vals ∧ thr ≤ (vals.count c : ℚ) / (vals.length : ℚ) := by
  unfold firstQualifying at h
  simp only [] at h
  have hcmem : c ∈ (npUnique vals).filter
      (fun c => decide (thr ≤ (vals.count c : ℚ) /
        ((((npUnique vals).map (fun c => vals.count c)).sum : Nat) : ℚ))) :=
    List.mem_of_mem_head? (Option.mem_def.mpr h)
  obtain ⟨hmem, hdec⟩ := List.mem_filter.mp hcmem
  rw [sum_counts_npUnique] at hdec
  exact ⟨mem_npUnique.mp hmem, of_decide_eq_true hdec⟩

/-- Completeness of `firstQualifying`: the minimal footprint label whose
proportion reaches the threshold is selected. -/
theorem firstQualifying_eq_some_of_min {thr : ℚ} {vals : List Nat} {c : Nat}
    (hc : c ∈ vals) (hq : thr ≤ (vals.count c : ℚ) / (vals.length : ℚ))
    (hmin : ∀ b ∈ vals, thr ≤ (vals.count b : ℚ) / (vals.length : ℚ) → c ≤ b) :
    firstQualifying thr vals = some c := by
  unfold firstQualifying
  simp only []
  rw [show (((npUnique vals).map (fun c => vals.count c)).sum) = vals.length
    from sum_counts_npUnique vals]
  exact head_filter_eq_of_min (sorted_npUnique vals) (mem_npUnique.mpr hc)
    (decide_eq_true hq)
    (fun b hb hpb => hmin b (mem_npUnique.mp hb) (of_decide_eq_true hpb))

/-- When no footprint label reaches the threshold, nothing is selected. -/
theorem firstQualifying_eq_none {thr : ℚ} {vals : List Nat}
    (h : ∀ c ∈ vals, (vals.count c : ℚ) / (vals.length : ℚ) < thr) :
    firstQualifying thr vals = none := by
  unfold firstQualifying
  simp only []
  rw [show (((npUnique vals).map (fun c => vals.count c)).sum) = vals.length
    from sum_counts_npUnique vals]
  rw [List.filter_eq_nil_iff.mpr ?_]
  · rfl
  · intro c hcm hdec
    exact absurd (of_decide_eq_true hdec)
      (not_le.mpr (h c (mem_npUnique.mp hcm)))

/-! ### Invariants of the match pipeline -/

/-- A well-formed lookup entry: the nucleus footprint exists, is fully
enclosed (no cytosol-background pixel under it), and the matched cytosol
covers at least the threshold fraction of the footprint. -/
def entryOK (nuc cyt : Mask) (thr : ℚ) (n c : Nat) : Prop :=
  ∃ vals, footprintValues nuc cyt n = some vals ∧ (∀ v ∈ vals, v ≠ 0) ∧
    thr ≤ (vals.count c : ℚ) / (vals.length : ℚ)

/-- Case analysis of one `_match_nucleus_id` step: either it appends a
well-formed entry for this nucleus id to the lookup dict, or it appends the
nucleus id to the discard list and leaves the dict unchanged. -/
theorem matchNucleusId_cases {nuc cyt : Mask} {thr : ℚ} {st st' : MatchState}
    {id : Nat} (h : matchNucleusId nuc cyt thr st id = some st') :
    (∃ c, entryOK nuc cyt thr id c ∧
      st' = { st with lookup := st.lookup ++ [(id, c)] }) ∨
    st' = { st with nucleiDiscard := st.nucleiDiscard ++ [id] } := by
  unfold matchNucleusId at h
  cases hf : footprintValues nuc cyt id with
  | none => rw [hf] at h; cases h
  | some vals =>
    rw [hf] at h
    dsimp only at h
    by_cases hall : vals.all (fun v => v != 0) = true
    · rw [if_pos hall] at h
      cases hq : firstQualifying thr vals with
      | none =>
        rw [hq] at h
        dsimp only at h
        exact Or.inr (Option.some.inj h).symm
      | some c =>
        rw [hq] at h
        dsimp only at h
        by_cases hc0 : c ≠ 0
        · rw [if_pos hc0] at h
          refine Or.inl ⟨c, ⟨vals, hf, ?_, (firstQualifying_sound hq).2⟩,
            (Option.some.inj h).symm⟩
          intro v hv
          simpa using List.all_eq_true.mp hall v hv
        · rw [if_neg hc0] at h
          exact Or.inr (Option.some.inj h).symm
    · rw [if_neg hall] at h
      exact Or.inr (Option.some.inj h).symm

/-- Folding `_match_nucleus_id` over a list of nucleus ids appends to the
lookup dict a list of well-formed entries whose keys form a sublist of the
processed ids. -/
theorem foldlM_match_lookup (nuc cyt : Mask) (thr : ℚ) :
    ∀ (ids : List Nat) (st st' : MatchState),
      ids.foldlM (matchNucleusId nuc cyt thr) st = some st' →
      ∃ ks, st'.lookup = st.lookup ++ ks ∧
        (ks.map Prod.fst).Sublist ids ∧
        ∀ p ∈ ks, entryOK nuc cyt thr p.1 p.2 := by
  intro ids
  induction ids with
  | nil =>
    intro st st' h
    exact ⟨[], by simpa using (Option.some.inj h) ▸ rfl, by simp, by simp⟩
  | cons id ids ih =>
    intro st st' h
    rw [List.foldlM_cons] at h
    cases hstep : matchNucleusId nuc cyt thr st id with
    | none => rw [hstep] at h; cases h
    | some st1 =>
      rw [hstep] at h
      obtain ⟨ks, hks, hsub, hok⟩ := ih st1 st' h
      rcases matchNucleusId_cases hstep with ⟨c, hcok, hst1⟩ | hst1
      · refine ⟨(id, c) :: ks, ?_, ?_, ?_⟩
        · rw [hks, hst1]
          simp
        · simpa using List.Sublist.cons₂ id hsub
        · intro p hp
          rcases List.mem_cons.mp hp with heq | htail
          · rw [heq]; exact hcok
          · exact hok p htail
      · refine ⟨ks, ?_, hsub.cons id, hok⟩
        rw [hks, hst1]

/-- After `_initialize_lookup_table` every entry is well-formed and the
nucleus keys are pairwise distinct. -/
theorem initializeLookupTable_spec {nuc cyt : Mask} {thr : ℚ}
    {st0 : MatchState} (h : initializeLookupTable nuc cyt thr = some st0) :
    (∀ p ∈ st0.lookup, entryOK nuc cyt thr p.1 p.2) ∧
    (st0.lookup.map Prod.fst).Nodup := by
  obtain ⟨ks, hks, hsub, hok⟩ :=
    foldlM_match_lookup nuc cyt thr (get_unique_ids (flatten nuc))
      initialState st0 h
  have hlk : st0.lookup = ks := by simpa [initialState] using hks
  constructor
  · intro p hp
    exact hok p (hlk ▸ hp)
  · rw [hlk]
    exact (nodup_get_unique_ids (flatten nuc)).sublist hsub

/-! ### The cleanup stages -/

theorem lookup_checkForUnassignedCytosols (cyt : Mask) (st : MatchState) :
    (checkForUnassignedCytosols cyt st).lookup = st.lookup := rfl

theorem lookup_identifyMultinucleatedCells (st : MatchState) :
    (identifyMultinucleatedCells st).lookup = st.lookup := rfl

theorem lookup_cleanupFilteringLists (st : MatchState) :
    (cleanupFilteringLists st).lookup = st.lookup := rfl

theorem discards_cleanupLookupDictionary (st : MatchState) :
    (cleanupLookupDictionary st).nucleiDiscard = st.nucleiDiscard ∧
    (cleanupLookupDictionary st).cytosolDiscard = st.cytosolDiscard :=
  ⟨rfl, rfl⟩

/-- `getLookupTable` is the cleanup pipeline applied to the state built by
`_initialize_lookup_table`. -/
theorem getLookupTable_decompose {nuc cyt : Mask} {thr : ℚ}
    {stF : MatchState} (h : getLookupTable nuc cyt thr = some stF) :
    ∃ st0, initializeLookupTable nuc cyt thr = some st0 ∧
      stF = cleanupLookupDictionary (cleanupFilteringLists
        (identifyMultinucleatedCells (checkForUnassignedCytosols cyt st0))) := by
  unfold getLookupTable at h
  cases hi : initializeLookupTable nuc cyt thr with
  | none => rw [hi] at h; cases h
  | some st0 =>
    rw [hi] at h
    exact ⟨st0, rfl, (Option.some.inj h).symm⟩

/-- Entries surviving `_cleanup_lookup_dictionary` come from the pre-cleanup
dict and reference no discarded id. -/
theorem mem_lookup_cleanupLookupDictionary {st : MatchState}
    {p : Nat × Nat} (hp : p ∈ (cleanupLookupDictionary st).lookup) :
    p ∈ st.lookup ∧ p.1 ∉ st.nucleiDiscard ∧ p.2 ∉ st.cytosolDiscard := by
  unfold cleanupLookupDictionary at hp
  obtain ⟨hmem, hdec⟩ := List.mem_filter.mp hp
  have hnotin := of_decide_eq_true hdec
  refine ⟨hmem, ?_, ?_⟩
  · intro hnd
    refine hnotin (List.mem_dedup.mpr (List.mem_map.mpr ⟨p, ?_, rfl⟩))
    exact List.mem_filter.mpr ⟨hmem, by simp [hnd]⟩
  · intro hcd
    refine hnotin (List.mem_dedup.mpr (List.mem_map.mpr ⟨p, ?_, rfl⟩))
    exact List.mem_filter.mpr ⟨hmem, by simp [hcd]⟩

/-- In the final state, every lookup entry comes from the initialisation
state and references no discarded id. -/
theorem final_lookup_clean {nuc cyt : Mask} {thr : ℚ} {st0 stF : MatchState}
    (h0 : initializeLookupTable nuc cyt thr = some st0)
    (h : getLookupTable nuc cyt thr = some stF) :
    ∀ p ∈ stF.lookup, p ∈ st0.lookup ∧
      p.1 ∉ stF.nucleiDiscard ∧ p.2 ∉ stF.cytosolDiscard := by
  obtain ⟨st0', h0', hF⟩ := getLookupTable_decompose h
  rw [h0] at h0'
  obtain rfl : st0 = st0' := Option.some.inj h0'
  intro p hp
  rw [hF] at hp
  obtain ⟨hmem, hnd, hcd⟩ := mem_lookup_cleanupLookupDictionary hp
  rw [lookup_cleanupFilteringLists, lookup_identifyMultinucleatedCells,
    lookup_checkForUnassignedCytosols] at hmem
  rw [hF]
  exact ⟨hmem, hnd, hcd⟩

/-- A cytosol id matched by more than one nucleus in the initial dict, and
every nucleus mapped to it, end up in the final discard lists. -/
theorem multinucleated_discarded {nuc cyt : Mask} {thr : ℚ}
    {st0 stF : MatchState}
    (h0 : initializeLookupTable nuc cyt thr = some st0)
    (h : getLookupTable nuc cyt thr = some stF) :
    ∀ p ∈ st0.lookup, 1 < cytosolCount st0.lookup p.2 →
      p.1 ∈ stF.nucleiDiscard ∧ p.2 ∈ stF.cytosolDiscard := by
  obtain ⟨st0', h0', hF⟩ := getLookupTable_decompose h
  rw [h0] at h0'
  obtain rfl : st0 = st0' := Option.some.inj h0'
  intro p hp hcount
  have hmulti : p ∈ (checkForUnassignedCytosols cyt st0).lookup.filter
      (fun q => decide (1 <
        cytosolCount (checkForUnassignedCytosols cyt st0).lookup q.2)) := by
    rw [lookup_checkForUnassignedCytosols]
    exact List.mem_filter.mpr ⟨hp, by simpa using hcount⟩
  rw [hF]
  constructor
  · show p.1 ∈ ((identifyMultinucleatedCells
      (checkForUnassignedCytosols cyt st0)).nucleiDiscard).dedup
    rw [List.mem_dedup]
    unfold identifyMultinucleatedCells
    exact List.mem_append_right _ (List.mem_map.mpr ⟨p, hmulti, rfl⟩)
  · show p.2 ∈ ((identifyMultinucleatedCells
      (checkForUnassignedCytosols cyt st0)).cytosolDiscard).dedup
    rw [List.mem_dedup]
    unfold identifyMultinucleatedCells
    exact List.mem_append_right _ (List.mem_map.mpr ⟨p, hmulti, rfl⟩)

theorem cytosolCount_eq_countP (l : List (Nat × Nat)) (c : Nat) :
    cytosolCount l c = l.countP (fun p => p.2 == c) := by
  unfold cytosolCount
  rw [List.count_eq_countP, List.countP_map]
  rfl

/-- Two distinct members both satisfying a predicate force a count of at
least two. -/
theorem two_le_countP {α : Type} {l : List α} {p : α → Bool} {a b : α}
    (ha : a ∈ l) (hb : b ∈ l) (hab : a ≠ b)
    (hpa : p a = true) (hpb : p b = true) : 2 ≤ l.countP p := by
  induction l with
  | nil => cases ha
  | cons x xs ih =>
    rw [List.countP_cons]
    rcases List.mem_cons.mp ha with rfl | ha'
    · have hb' : b ∈ xs := by
        rcases List.mem_cons.mp hb with rfl | h
        · exact absurd rfl hab
        · exact h
      have h1 : 1 ≤ xs.countP p :=
        List.countP_pos_iff.mpr ⟨b, hb', hpb⟩
      rw [if_pos hpa]
      omega
    · rcases List.mem_cons.mp hb with rfl | hb'
      · have h1 : 1 ≤ xs.countP p :=
          List.countP_pos_iff.mpr ⟨a, ha', hpa⟩
        rw [if_pos hpb]
        omega
      · have := ih ha' hb'
        split <;> omega

/-! ### C1 -/

/-- C1: after `MatchNucleusCytosolIds.get_lookup_table` completes, the lookup
table is injective (no cytosol id is the value of two distinct nucleus keys),
every entry satisfies full enclosure (no footprint pixel over cytosol
background) and overlap fraction at least the configured threshold, and no
entry references a discarded nucleus or cytosol id. -/
theorem C1_lookup_table_invariant (nuc cyt : Mask) (thr : ℚ)
    (stF : MatchState) (h : getLookupTable nuc cyt thr = some stF) :
    (∀ p ∈ stF.lookup, ∀ q ∈ stF.lookup, p.2 = q.2 → p.1 = q.1) ∧
    (∀ p ∈ stF.lookup, ∃ vals, footprintValues nuc cyt p.1 = some vals ∧
      (∀ v ∈ vals, v ≠ 0) ∧
      thr ≤ (vals.count p.2 : ℚ) / (vals.length : ℚ)) ∧
    (∀ p ∈ stF.lookup, p.1 ∉ stF.nucleiDiscard ∧ p.2 ∉ stF.cytosolDiscard) := by
  obtain ⟨st0, h0, -⟩ := getLookupTable_decompose h
  have hclean := final_lookup_clean h0 h
  have hspec := initializeLookupTable_spec h0
  refine ⟨?_, ?_, fun p hp => (hclean p hp).2⟩
  · intro p hp q hq hpq
    by_contra h1
    have hpq' : p ≠ q := fun he => h1 (by rw [he])
    have hp0 : p ∈ st0.lookup := (hclean p hp).1
    have hq0 : q ∈ st0.lookup := (hclean q hq).1
    have hcount : 1 < cytosolCount st0.lookup p.2 := by
      rw [cytosolCount_eq_countP]
      exact two_le_countP hp0 hq0 hpq' (by simp) (by simp [hpq])
    exact (hclean p hp).2.2 ((multinucleated_discarded h0 h p hp0 hcount).2)
  · intro p hp
    exact hspec.1 p (hclean p hp).1

/-- C1 witness: a concrete run with one matched pair, instantiating the
invariant. -/
theorem C1_lookup_table_invariant_witness :
    (∀ p ∈ (⟨[(1, 10)], [], []⟩ : MatchState).lookup,
      ∀ q ∈ (⟨[(1, 10)], [], []⟩ : MatchState).lookup, p.2 = q.2 → p.1 = q.1) ∧
    (∀ p ∈ (⟨[(1, 10)], [], []⟩ : MatchState).lookup,
      ∃ vals, footprintValues [[0, 1], [0, 0]] [[10, 10], [10, 0]] p.1 =
          some vals ∧ (∀ v ∈ vals, v ≠ 0) ∧
        (Rat.mk' 1 2 (by decide) (by decide)) ≤
          (vals.count p.2 : ℚ) / (vals.length : ℚ)) ∧
    (∀ p ∈ (⟨[(1, 10)], [], []⟩ : MatchState).lookup,
      p.1 ∉ (⟨[(1, 10)], [], []⟩ : MatchState).nucleiDiscard ∧
      p.2 ∉ (⟨[(1, 10)], [], []⟩ : MatchState).cytosolDiscard) :=
  C1_lookup_table_invariant [[0, 1], [0, 0]] [[10, 10], [10, 0]]
    (Rat.mk' 1 2 (by decide) (by decide)) ⟨[(1, 10)], [], []⟩
    (by rw [getLookupTable_eq_int]; decide)

/-! ### C2 -/

/-- The literal `1/2` as a normalised rational, supporting definitional
evaluation of concrete pipeline runs with overlap threshold `0.5`. -/
theorem one_half_mk : (1/2 : ℚ) = Rat.mk' 1 2 (by decide) (by decide) := by
  rw [Rat.mk'_eq_divInt, Rat.divInt_eq_div]
  norm_num

/-- C2: a cytosol id matched by more than one nucleus is discarded together
with every nucleus id mapped to it; in the concrete scenario (nuclei `{1,2}`
both fully inside cytosol `10`, cytosols `{10,20}`, threshold `0.5`) both
nuclei and cytosol `10` are discarded, the final lookup table is empty, and
the output cytosol mask contains no pixel with id `10`. -/
theorem C2_multinucleation_rule :
    (∀ (nuc cyt : Mask) (thr : ℚ) (st0 stF : MatchState),
      initializeLookupTable nuc cyt thr = some st0 →
      getLookupTable nuc cyt thr = some stF →
      ∀ p ∈ st0.lookup, 1 < cytosolCount st0.lookup p.2 →
        p.1 ∈ stF.nucleiDiscard ∧ p.2 ∈ stF.cytosolDiscard ∧
          p ∉ stF.lookup) ∧
    (getLookupTable [[0, 1, 0], [0, 2, 0], [0, 0, 0]]
        [[10, 10, 10], [10, 10, 10], [0, 20, 20]] (1/2) =
      some ⟨[], [1, 2], [20, 10]⟩) ∧
    (filterRun [[0, 1, 0], [0, 2, 0], [0, 0, 0]]
        [[10, 10, 10], [10, 10, 10], [0, 20, 20]] (1/2) =
      some ([[0, 0, 0], [0, 0, 0], [0, 0, 0]],
            [[0, 0, 0], [0, 0, 0], [0, 0, 0]])) := by
  refine ⟨?_, ?_, ?_⟩
  · intro nuc cyt thr st0 stF h0 h p hp hcount
    obtain ⟨hnd, hcd⟩ := multinucleated_discarded h0 h p hp hcount
    refine ⟨hnd, hcd, fun hmem => ?_⟩
    exact (final_lookup_clean h0 h p hmem).2.2 hcd
  · rw [one_half_mk, getLookupTable_eq_int]
    decide
  · rw [one_half_mk, filterRun_eq_int]
    decide

/-- C2 witness: the general multinucleation rule instantiated on the
scenario's masks, discharging its hypotheses on that concrete run. -/
theorem C2_multinucleation_rule_witness :
    (1, 10).1 ∈ (⟨[], [1, 2], [20, 10]⟩ : MatchState).nucleiDiscard ∧
    (1, 10).2 ∈ (⟨[], [1, 2], [20, 10]⟩ : MatchState).cytosolDiscard ∧
    (1, 10) ∉ (⟨[], [1, 2], [20, 10]⟩ : MatchState).lookup :=
  C2_multinucleation_rule.1 [[0, 1, 0], [0, 2, 0], [0, 0, 0]]
    [[10, 10, 10], [10, 10, 10], [0, 20, 20]]
    (Rat.mk' 1 2 (by decide) (by decide))
    ⟨[(1, 10), (2, 10)], [], []⟩ ⟨[], [1, 2], [20, 10]⟩
    (by rw [initializeLookupTable_eq_int]; decide)
    (by rw [getLookupTable_eq_int]; decide)
    (1, 10) (by decide) (by decide)

/-! ### C3 -/

/-- C3: for a fully enclosed nucleus, the distinct cytosol labels under its
footprint are scanned in ascending order and the nucleus is matched to the
first (i.e. least) label whose footprint fraction reaches the threshold; if
no label reaches it, the nucleus is appended to the discard list and no
lookup entry is created. -/
theorem C3_ascending_first_match (nuc cyt : Mask) (thr : ℚ) (st : MatchState)
    (id : Nat) (vals : List Nat)
    (hf : footprintValues nuc cyt id = some vals)
    (hnz : ∀ v ∈ vals, v ≠ 0) :
    (∀ c, c ∈ vals → thr ≤ (vals.count c : ℚ) / (vals.length : ℚ) →
      (∀ b ∈ vals, thr ≤ (vals.count b : ℚ) / (vals.length : ℚ) → c ≤ b) →
      matchNucleusId nuc cyt thr st id =
        some { st with lookup := st.lookup ++ [(id, c)] }) ∧
    ((∀ c ∈ vals, (vals.count c : ℚ) / (vals.length : ℚ) < thr) →
      matchNucleusId nuc cyt thr st id =
        some { st with nucleiDiscard := st.nucleiDiscard ++ [id] }) := by
  have hall : vals.all (fun v => v != 0) = true :=
    List.all_eq_true.mpr (fun v hv => by simpa using hnz v hv)
  constructor
  · intro c hc hq hmin
    have hfq := firstQualifying_eq_some_of_min hc hq hmin
    unfold matchNucleusId
    rw [hf]
    dsimp only
    rw [if_pos hall, hfq]
    dsimp only
    rw [if_pos (hnz c hc)]
  · intro hnone
    have hfq := firstQualifying_eq_none hnone
    unfold matchNucleusId
    rw [hf]
    dsimp only
    rw [if_pos hall, hfq]

/-- C3 witness: two labels `3` and `7` each cover half the footprint and both
reach threshold `0.3`; the lower label `3` is selected. -/
theorem C3_ascending_first_match_witness :
    matchNucleusId [[1, 1, 1, 1, 0]] [[3, 3, 7, 7, 5]]
        (Rat.mk' 3 10 (by decide) (by decide)) initialState 1 =
      some ⟨[(1, 3)], [], []⟩ :=
  (C3_ascending_first_match [[1, 1, 1, 1, 0]] [[3, 3, 7, 7, 5]]
    (Rat.mk' 3 10 (by decide) (by decide)) initialState 1 [3, 3, 7, 7]
    (by decide) (by decide)).1 3 (by decide)
    (by rw [show Rat.mk' 3 10 (by decide) (by decide) = (3/10 : ℚ) from by
          rw [Rat.mk'_eq_divInt, Rat.divInt_eq_div]; norm_num]
        norm_num)
    (by intro b hb _; fin_cases hb <;> decide)

/-! ### C4 -/

/-- C4: a nucleus whose footprint contains a cytosol-background pixel is
appended to the nuclei discard list with no match attempted, regardless of
its overlap with any nonzero label. -/
theorem C4_background_discards_nucleus (nuc cyt : Mask) (thr : ℚ)
    (st : MatchState) (id : Nat) (vals : List Nat)
    (hf : footprintValues nuc cyt id = some vals) (h0 : 0 ∈ vals) :
    matchNucleusId nuc cyt thr st id =
      some { st with nucleiDiscard := st.nucleiDiscard ++ [id] } := by
  have hall : vals.all (fun v => v != 0) ≠ true := by
    intro hall
    simpa using List.all_eq_true.mp hall 0 h0
  unfold matchNucleusId
  rw [hf]
  dsimp only
  rw [if_neg hall]

/-- C4 witness: a nucleus 3/4 covered by cytosol `5` but touching one
background pixel is discarded (threshold `0.5` would otherwise match `5`). -/
theorem C4_background_discards_nucleus_witness :
    matchNucleusId [[1, 1, 1, 1]] [[5, 5, 5, 0]]
        (Rat.mk' 1 2 (by decide) (by decide)) initialState 1 =
      some ⟨[], [1], []⟩ :=
  C4_background_discards_nucleus [[1, 1, 1, 1]] [[5, 5, 5, 0]]
    (Rat.mk' 1 2 (by decide) (by decide)) initialState 1 [5, 5, 5, 0]
    (by decide) (by decide)

/-! ### C7 -/

/-- A position produced by `wherePos` is in bounds for its own mask. -/
theorem mem_wherePos {m : Mask} {id : Nat} {q : Nat × Nat}
    (h : q ∈ wherePos m id) :
    ∃ row, m[q.1]? = some row ∧ q.2 < row.length := by
  unfold wherePos at h
  rw [List.mem_flatten] at h
  obtain ⟨l, hl, hql⟩ := h
  rw [List.mem_map] at hl
  obtain ⟨ir, hir, rfl⟩ := hl
  rw [List.mem_map] at hql
  obtain ⟨jv, hjv, rfl⟩ := hql
  have hjm : jv ∈ ir.2.enum := (List.mem_filter.mp hjv).1
  refine ⟨ir.2, ?_, ?_⟩
  · exact List.mk_mem_enum_iff_getElem?.mp (show (ir.1, ir.2) ∈ m.enum by
      simpa using hir)
  · have hj := List.mk_mem_enum_iff_getElem?.mp
      (show (jv.1, jv.2) ∈ ir.2.enum by simpa using hjm)
    exact (List.getElem?_eq_some.mp hj).1

theorem atPosAll_isSome {m : Mask} :
    ∀ {ps : List (Nat × Nat)}, (∀ q ∈ ps, (atPos m q).isSome = true) →
      (atPosAll m ps).isSome = true := by
  intro ps
  induction ps with
  | nil => intro; rfl
  | cons q ps ih =>
    intro h
    obtain ⟨v, hv⟩ := Option.isSome_iff_exists.mp
      (h q (List.mem_cons_self q ps))
    have hps := ih (fun q' hq' => h q' (List.mem_cons_of_mem q hq'))
    obtain ⟨vs, hvs⟩ := Option.isSome_iff_exists.mp hps
    unfold atPosAll
    rw [hv, hvs]
    rfl

/-- Without any shape check, every footprint lookup succeeds as soon as the
cytosol mask is at least as large as the nucleus mask, row by row. -/
theorem footprintValues_isSome {nuc cyt : Mask}
    (hrows : nuc.length ≤ cyt.length)
    (hcols : ∀ (i : Nat) (r r' : List Nat), nuc[i]? = some r →
      cyt[i]? = some r' → r.length ≤ r'.length) (id : Nat) :
    (footprintValues nuc cyt id).isSome = true := by
  unfold footprintValues
  refine atPosAll_isSome ?_
  intro q hq
  obtain ⟨row, hrow, hlt⟩ := mem_wherePos hq
  have hi : q.1 < nuc.length := (List.getElem?_eq_some.mp hrow).1
  have hi' : q.1 < cyt.length := lt_of_lt_of_le hi hrows
  have hrow' : cyt[q.1]? = some cyt[q.1] := List.getElem?_eq_getElem hi'
  have hlen := hcols q.1 row (cyt[q.1]) hrow hrow'
  unfold atPos
  rw [hrow']
  show (cyt[q.1][q.2]?).isSome = true
  rw [List.getElem?_eq_getElem (lt_of_lt_of_le hlt hlen)]
  rfl

theorem matchNucleusId_isSome {nuc cyt : Mask} {thr : ℚ} {id : Nat}
    (hsome : (footprintValues nuc cyt id).isSome = true) (st : MatchState) :
    (matchNucleusId nuc cyt thr st id).isSome = true := by
  obtain ⟨vals, hv⟩ := Option.isSome_iff_exists.mp hsome
  unfold matchNucleusId
  rw [hv]
  dsimp only
  split
  · split
    · split <;> rfl
    · rfl
  · rfl

theorem foldlM_match_isSome {nuc cyt : Mask} {thr : ℚ} :
    ∀ (ids : List Nat) (st : MatchState),
      (∀ id ∈ ids, (footprintValues nuc cyt id).isSome = true) →
      ((ids.foldlM (matchNucleusId nuc cyt thr) st).isSome = true) := by
  intro ids
  induction ids with
  | nil => intro st _; rfl
  | cons id ids ih =>
    intro st h
    rw [List.foldlM_cons]
    obtain ⟨st1, h1⟩ := Option.isSome_iff_exists.mp
      (matchNucleusId_isSome (h id (List.mem_cons_self id ids)) st)
    rw [h1]
    show ((ids.foldlM (matchNucleusId nuc cyt thr) st1).isSome = true)
    exact ih st1 (fun id' h' => h id' (List.mem_cons_of_mem id h'))

/-- C7 counterexample: the nucleus mask is 1×2 and the cytosol mask 2×2 —
the shapes differ — yet `get_lookup_table` completes normally and returns a
match, raising no validation error. -/
theorem C7_counterexample :
    ([[1, 0]] : Mask).length ≠ ([[10, 10], [10, 10]] : Mask).length ∧
    getLookupTable [[1, 0]] [[10, 10], [10, 10]] (1/2) =
      some ⟨[(1, 10)], [], []⟩ :=
  ⟨by decide, by rw [one_half_mk, getLookupTable_eq_int]; decide⟩

/-- C7 (amended): no shape validation is performed.  Whenever every nucleus
footprint position lies inside the cytosol mask — in particular whenever the
cytosol mask is at least as large in every dimension — mismatched masks are
processed without any error; a mismatch can only surface as an incidental
out-of-bounds indexing failure, never as a dedicated validation error. -/
theorem C7_no_shape_validation (nuc cyt : Mask) (thr : ℚ)
    (hrows : nuc.length ≤ cyt.length)
    (hcols : ∀ (i : Nat) (r r' : List Nat), nuc[i]? = some r →
      cyt[i]? = some r' → r.length ≤ r'.length) :
    (getLookupTable nuc cyt thr).isSome = true := by
  have hin : (initializeLookupTable nuc cyt thr).isSome = true :=
    foldlM_match_isSome _ initialState
      (fun id _ => footprintValues_isSome hrows hcols id)
  obtain ⟨st0, h0⟩ := Option.isSome_iff_exists.mp hin
  unfold getLookupTable
  rw [h0]
  rfl

/-- C7 witness: the amended statement applied to the concrete mismatched
masks of the counterexample. -/
theorem C7_no_shape_validation_witness :
    ([[1, 0]] : Mask).length ≤ ([[10, 10], [10, 10]] : Mask).length ∧
    (getLookupTable [[1, 0]] [[10, 10], [10, 10]]
      (Rat.mk' 1 2 (by decide) (by decide))).isSome = true :=
  ⟨by decide,
    C7_no_shape_validation [[1, 0]] [[10, 10], [10, 10]]
      (Rat.mk' 1 2 (by decide) (by decide)) (by decide)
      (by
        intro i r r' hr hr'
        match i with
        | 0 =>
          simp only [List.getElem?_cons_zero, Option.some.injEq] at hr hr'
          rw [← hr, ← hr']
          decide
        | n + 1 =>
          simp at hr)⟩

/-! ### C10 -/

/-- A pixel list with no nonzero value yields no ids: its sorted distinct
values are `[]` or `[0]`, and dropping the first entry leaves nothing. -/
theorem get_unique_ids_eq_nil_of_all_zero {xs : List Nat}
    (h : ∀ v ∈ xs, v = 0) : get_unique_ids xs = [] := by
  unfold get_unique_ids
  cases hu : npUnique xs with
  | nil => rfl
  | cons a t =>
    cases t with
    | nil => rfl
    | cons b t' =>
      have ha : a ∈ npUnique xs := by
        rw [hu]; exact List.mem_cons_self a (b :: t')
      have hb : b ∈ npUnique xs := by
        rw [hu]
        exact List.mem_cons_of_mem a (List.mem_cons_self b t')
      have ha0 := h a (mem_npUnique.mp ha)
      have hb0 := h b (mem_npUnique.mp hb)
      have hnd := nodup_npUnique xs
      rw [hu] at hnd
      exact absurd (show a ∈ b :: t' by
          rw [ha0, hb0]; exact List.mem_cons_self 0 t')
        (List.nodup_cons.mp hnd).1

theorem updatedCytosolRow_nil_lookup (cd row : List Nat) :
    updatedCytosolRow [] cd row = get_updated_mask row cd := by
  unfold updatedCytosolRow
  rw [List.foldl_nil, List.map_map]
  exact (List.map_congr_left (fun a _ => rfl)).trans
    (List.map_id (get_updated_mask row cd))

/-- C10 counterexample: with an all-background nucleus mask and the cytosol
mask `[[5]]` (which has no background pixel), nothing is discarded and the
returned cytosol mask still carries id `5` — it is not entirely background
and `5` is not in the discard set. -/
theorem C10_counterexample :
    (∀ v ∈ flatten ([[0]] : Mask), v = 0) ∧
    getLookupTable [[0]] [[5]] (1/2) = some ⟨[], [], []⟩ ∧
    filterRun [[0]] [[5]] (1/2) = some ([[0]], [[5]]) ∧
    (5 : Nat) ∈ flatten ([[5]] : Mask) :=
  ⟨by decide, by rw [one_half_mk, getLookupTable_eq_int]; decide,
    by rw [one_half_mk, filterRun_eq_int]; decide, by decide⟩

/-- C10 (amended): for an all-background nucleus mask and a cytosol mask that
contains at least one background pixel, the lookup table is empty, every
cytosol id is discarded as an orphan, and `filter` (downsampling disabled)
returns the unchanged nucleus mask together with an all-background cytosol
mask. -/
theorem C10_all_background_nucleus (nuc cyt : Mask) (thr : ℚ)
    (hn : ∀ v ∈ flatten nuc, v = 0) (hc : 0 ∈ flatten cyt) :
    ∃ stF, getLookupTable nuc cyt thr = some stF ∧ stF.lookup = [] ∧
      (∀ c ∈ flatten cyt, c ≠ 0 → c ∈ stF.cytosolDiscard) ∧
      ∃ out, filterRun nuc cyt thr = some out ∧ out.1 = nuc ∧
        (∀ v ∈ flatten out.2, v = 0) := by
  have hids : get_unique_ids (flatten nuc) = [] :=
    get_unique_ids_eq_nil_of_all_zero hn
  have h0 : initializeLookupTable nuc cyt thr = some initialState := by
    unfold initializeLookupTable
    rw [hids]
    rfl
  have hF : getLookupTable nuc cyt thr =
      some (cleanupLookupDictionary (cleanupFilteringLists
        (identifyMultinucleatedCells
          (checkForUnassignedCytosols cyt initialState)))) := by
    unfold getLookupTable
    rw [h0]
  refine ⟨_, hF, rfl, ?_, ?_⟩
  · intro c hcm hc0
    have hcid : c ∈ get_unique_ids (flatten cyt) :=
      (mem_get_unique_ids_of_zero_mem hc c).mpr ⟨hcm, hc0⟩
    show c ∈ ((identifyMultinucleatedCells
      (checkForUnassignedCytosols cyt initialState)).cytosolDiscard).dedup
    rw [List.mem_dedup]
    unfold identifyMultinucleatedCells
    refine List.mem_append_left _ ?_
    show c ∈ (checkForUnassignedCytosols cyt initialState).cytosolDiscard
    unfold checkForUnassignedCytosols
    refine List.mem_append_right _ (List.mem_filter.mpr ⟨hcid, ?_⟩)
    simp [initialState]
  · have hout : filterRun nuc cyt thr =
        some (getUpdatedMasks false 1 nuc cyt
          (cleanupLookupDictionary (cleanupFilteringLists
            (identifyMultinucleatedCells
              (checkForUnassignedCytosols cyt initialState))))) := by
      unfold filterRun
      rw [hF]
    refine ⟨_, hout, ?_, ?_⟩
    · show get_updated_mask2 nuc (([] : List Nat).dedup) = nuc
      rw [List.dedup_nil, get_updated_mask2_nil_ids]
    · intro v hv
      obtain ⟨row', hrow', hvrow⟩ := List.mem_flatten.mp hv
      obtain ⟨row, hrow, hrw⟩ := List.mem_map.mp hrow'
      rw [← hrw] at hvrow
      have hlk : (cleanupLookupDictionary (cleanupFilteringLists
          (identifyMultinucleatedCells
            (checkForUnassignedCytosols cyt initialState)))).lookup = [] := rfl
      rw [hlk, updatedCytosolRow_nil_lookup] at hvrow
      obtain ⟨w, hw, hwv⟩ := List.mem_map.mp hvrow
      by_cases hmem : w ∈ (cleanupLookupDictionary (cleanupFilteringLists
          (identifyMultinucleatedCells
            (checkForUnassignedCytosols cyt initialState)))).cytosolDiscard
      · rw [if_pos hmem] at hwv
        exact hwv.symm
      · rw [if_neg hmem] at hwv
        subst hwv
        by_contra hv0
        refine hmem ?_
        show w ∈ ((identifyMultinucleatedCells
          (checkForUnassignedCytosols cyt initialState)).cytosolDiscard).dedup
        rw [List.mem_dedup]
        unfold identifyMultinucleatedCells
        refine List.mem_append_left _ ?_
        show w ∈ (checkForUnassignedCytosols cyt initialState).cytosolDiscard
        unfold checkForUnassignedCytosols
        refine List.mem_append_right _ (List.mem_filter.mpr ⟨?_, ?_⟩)
        · exact (mem_get_unique_ids_of_zero_mem hc w).mpr
            ⟨List.mem_flatten.mpr ⟨row, hrow, hw⟩, hv0⟩
        · simp [initialState]

/-- C10 witness: the amended statement on a concrete 2×2 pair. -/
theorem C10_all_background_nucleus_witness :
    ∃ stF, getLookupTable [[0, 0], [0, 0]] [[0, 10], [20, 20]]
        (Rat.mk' 1 2 (by decide) (by decide)) = some stF ∧
      stF.lookup = [] ∧
      (∀ c ∈ flatten ([[0, 10], [20, 20]] : Mask), c ≠ 0 →
        c ∈ stF.cytosolDiscard) ∧
      ∃ out, filterRun [[0, 0], [0, 0]] [[0, 10], [20, 20]]
          (Rat.mk' 1 2 (by decide) (by decide)) = some out ∧
        out.1 = [[0, 0], [0, 0]] ∧ (∀ v ∈ flatten out.2, v = 0) :=
  C10_all_background_nucleus [[0, 0], [0, 0]] [[0, 10], [20, 20]]
    (Rat.mk' 1 2 (by decide) (by decide)) (by decide) (by decide)

/-! ### C5 -/

/-- C5 counterexample: on the mask `[1,2,2,2,2]` (no background pixel) with
threshold `(2, 3)`, id `1` has pixel count `1 < 2` yet survives the filter —
`np.unique(mask)[1:]` dropped it — so the filter does not remove exactly the
out-of-range ids; and refiltering the output removes id `1`, so the filter is
not idempotent either. -/
theorem C5_counterexample :
    sizeFilterRun [1, 2, 2, 2, 2] 2 3 = [1, 0, 0, 0, 0] ∧
    (([1, 2, 2, 2, 2] : List Nat).count 1 : ℚ) < 2 ∧
    sizeFilterRun (sizeFilterRun [1, 2, 2, 2, 2] 2 3) 2 3 =
      [0, 0, 0, 0, 0] :=
  ⟨by decide, by decide, by decide⟩

/-- C5 (amended): on a mask containing at least one background pixel, a
size-filter run with explicit threshold `(lo, hi)` and both tails enabled
removes exactly the ids whose pixel count is strictly below `lo` or strictly
above `hi`, leaves every other pixel unchanged, and is idempotent. -/
theorem C5_size_filter_behaviour (xs : List Nat) (lo hi : ℚ) (h0 : 0 ∈ xs) :
    (∀ v, v ∈ sizeFilterIdsToRemove xs lo hi true true ↔
      v ∈ xs ∧ v ≠ 0 ∧
        ((xs.count v : ℚ) < lo ∨ hi < (xs.count v : ℚ))) ∧
    sizeFilterRun xs lo hi =
      xs.map (fun v => if outOfRange xs lo hi v then 0 else v) ∧
    sizeFilterRun (sizeFilterRun xs lo hi) lo hi = sizeFilterRun xs lo hi :=
  ⟨fun v => mem_sizeFilterIdsToRemove_of_zero_mem h0 lo hi v,
    sizeFilterRun_eq_map h0 lo hi, sizeFilterRun_idempotent h0 lo hi⟩

/-- C5 witness: the amended statement on `[0,1,2,2,2,2]` with threshold
`(2, 3)`, checking the removal list and idempotence concretely. -/
theorem C5_size_filter_behaviour_witness :
    ((1 : Nat) ∈ sizeFilterIdsToRemove [0, 1, 2, 2, 2, 2] 2 3 true true ↔
      (1 : Nat) ∈ ([0, 1, 2, 2, 2, 2] : List Nat) ∧ (1 : Nat) ≠ 0 ∧
        ((([0, 1, 2, 2, 2, 2] : List Nat).count 1 : ℚ) < 2 ∨
          3 < (([0, 1, 2, 2, 2, 2] : List Nat).count 1 : ℚ))) ∧
    sizeFilterRun (sizeFilterRun [0, 1, 2, 2, 2, 2] 2 3) 2 3 =
      sizeFilterRun [0, 1, 2, 2, 2, 2] 2 3 :=
  ⟨(C5_size_filter_behaviour [0, 1, 2, 2, 2, 2] 2 3 (by decide)).1 1,
    (C5_size_filter_behaviour [0, 1, 2, 2, 2, 2] 2 3 (by decide)).2.2⟩

/-! ### C6 -/

/-- C6: with downsampling configured, `_get_updated_masks` upscales the raw
loaded cytosol mask (`self.cytosol_mask`) instead of the cleaned, relabelled
cytosol mask it just computed: on the run below, cytosol `20` is an orphan in
the discard set and absent from the cleaned mask, yet the returned cytosol
mask is the upscaled raw mask and still carries id `20` (and the matched
region keeps id `5` instead of being relabelled to `1`).  (With downsampling
the source additionally crashes earlier: `_load_masks` calls the undefined
method `self.downsample_mask`.) -/
theorem C6_raw_cytosol_mask_upscaled :
    getLookupTable [[1, 0], [0, 0]] [[5, 0], [0, 20]]
        (Rat.mk' 1 2 (by decide) (by decide)) =
      some ⟨[(1, 5)], [], [20]⟩ ∧
    (getUpdatedMasks true 2 [[1, 0], [0, 0]] [[5, 0], [0, 20]]
        ⟨[(1, 5)], [], [20]⟩).2 =
      getUpscaledMaskBasic 2 [[5, 0], [0, 20]] ∧
    (20 : Nat) ∈ flatten (getUpdatedMasks true 2 [[1, 0], [0, 0]]
        [[5, 0], [0, 20]] ⟨[(1, 5)], [], [20]⟩).2 ∧
    (20 : Nat) ∉ flatten (getUpdatedCytosolMask [[5, 0], [0, 20]]
        ⟨[(1, 5)], [], [20]⟩) ∧
    (1 : Nat) ∉ flatten (getUpdatedMasks true 2 [[1, 0], [0, 0]]
        [[5, 0], [0, 20]] ⟨[(1, 5)], [], [20]⟩).2 ∧
    (1 : Nat) ∈ flatten (getUpdatedCytosolMask [[5, 0], [0, 20]]
        ⟨[(1, 5)], [], [20]⟩) :=
  ⟨by rw [getLookupTable_eq_int]; decide, by decide, by decide, by decide,
    by decide, by decide⟩

/-! ### C8 -/

/-- C8 counterexample: the mask `[1,2]` contains the positive id `1`, but
`get_unique_ids` omits it — `np.unique(mask)[1:]` drops the smallest value
even when that value is not the background. -/
theorem C8_counterexample :
    (1 : Nat) ∈ ([1, 2] : List Nat) ∧ (1 : Nat) ≠ 0 ∧
    (1 : Nat) ∉ get_unique_ids [1, 2] :=
  ⟨by decide, by decide, by decide⟩

/-- C8 (amended): `get_unique_ids` never returns 0; when the mask contains a
background pixel it returns exactly the distinct positive values present;
when it does not, the smallest positive id present is omitted as well. -/
theorem C8_unique_ids_behaviour (xs : List Nat) :
    0 ∉ get_unique_ids xs ∧
    (0 ∈ xs → ∀ v, v ∈ get_unique_ids xs ↔ v ∈ xs ∧ v ≠ 0) :=
  ⟨zero_not_mem_get_unique_ids xs,
    fun h0 v => mem_get_unique_ids_of_zero_mem h0 v⟩

/-- C8 witness: the amended statement on `[0,1,2]`. -/
theorem C8_unique_ids_behaviour_witness :
    0 ∉ get_unique_ids [0, 1, 2] ∧
    ((1 : Nat) ∈ get_unique_ids [0, 1, 2] ↔
      (1 : Nat) ∈ ([0, 1, 2] : List Nat) ∧ (1 : Nat) ≠ 0) :=
  ⟨(C8_unique_ids_behaviour [0, 1, 2]).1,
    (C8_unique_ids_behaviour [0, 1, 2]).2 (by decide) 1⟩

/-! ### C9 -/

/-- C9: `get_updated_mask` sets exactly the pixels whose original value is in
the removal set to 0, leaves every other pixel unchanged, and with the empty
removal set returns the mask unchanged. -/
theorem C9_updated_mask_behaviour (xs ids : List Nat) :
    (∀ i : Nat, (get_updated_mask xs ids)[i]? =
      xs[i]?.map (fun v => if v ∈ ids then 0 else v)) ∧
    get_updated_mask xs [] = xs :=
  ⟨fun i => getElem?_get_updated_mask xs ids i, get_updated_mask_nil_ids xs⟩

end ScPortrait
